import Mathlib

/-!
Verification development for the Windows Notepad tab-state decoder
(`dissect/target/plugins/apps/texteditor/windowsnotepad.py`).

The decoder is shallowly embedded: byte streams are lists of natural
numbers (each byte `< 256`), wide characters are modelled as their raw
UTF-16LE code units, and every fallible read returns an `Option`.  A
Python `EOFError` corresponds to a parser returning `none`.
-/

namespace WindowsNotepad

/-- Read one byte from the stream (cstruct `uint8`); `none` on end of stream. -/
def readByte : List Nat → Option (Nat × List Nat)
  | [] => none
  | b :: s => some (b, s)

/-- Read exactly `n` raw bytes (cstruct `char[n]`); `none` if fewer remain. -/
def readBytes (n : Nat) (s : List Nat) : Option (List Nat × List Nat) :=
  if n ≤ s.length then some (s.take n, s.drop n) else none

/-- Decode a `uleb128`: each byte contributes its low 7 bits, little-endian,
continuing while the high bit is set; `none` if the stream ends first. -/
def readUleb : List Nat → Option (Nat × List Nat)
  | [] => none
  | b :: s =>
    if b &&& 128 = 0 then some (b &&& 127, s)
    else
      match readUleb s with
      | none => none
      | some (v, s2) => some ((b &&& 127) + 128 * v, s2)

/-- Canonical `uleb128` serialization (cstruct write path), via a fuel
argument so that the definition is structurally recursive; `encodeUleb`
supplies fuel `n`, which `encodeUlebAux_congr` shows is sufficient. -/
def encodeUlebAux : Nat → Nat → List Nat
  | 0, n => [n % 128]
  | fuel + 1, n => if n < 128 then [n] else (n % 128 + 128) :: encodeUlebAux fuel (n / 128)

/-- Canonical `uleb128` serialization of `n`. -/
def encodeUleb (n : Nat) : List Nat :=
  encodeUlebAux n n

/-- Read one UTF-16LE code unit (two bytes, low byte first). -/
def readWchar : List Nat → Option (Nat × List Nat)
  | lo :: hi :: s => some (lo + 256 * hi, s)
  | _ => none

/-- Read `n` UTF-16LE code units (cstruct `wchar[n]`). -/
def readWchars : Nat → List Nat → Option (List Nat × List Nat)
  | 0, s => some ([], s)
  | n + 1, s =>
    match readWchar s with
    | none => none
    | some (u, s2) =>
      match readWchars n s2 with
      | none => none
      | some (us, s3) => some (u :: us, s3)

/-- Serialize one code unit as two bytes, low byte first. -/
def encodeWchar (u : Nat) : List Nat :=
  [u % 256, (u / 256) % 256]

/-- Serialize a list of code units (cstruct `wchar[n]` write path). -/
def encodeWchars : List Nat → List Nat
  | [] => []
  | u :: us => encodeWchar u ++ encodeWchars us

/-- One round of the reflected CRC-32 bit loop (polynomial `0xEDB88320`). -/
def crc32Round (c : Nat) : Nat :=
  if c &&& 1 = 1 then (c >>> 1) ^^^ 0xEDB88320 else c >>> 1

/-- Iterate `crc32Round` `k` times. -/
def crc32Rounds : Nat → Nat → Nat
  | 0, c => c
  | k + 1, c => crc32Rounds k (crc32Round c)

/-- Fold one input byte into the running CRC-32 state. -/
def crc32Byte (c b : Nat) : Nat :=
  crc32Rounds 8 (c ^^^ (b &&& 255))

/-- The `zlib.crc32` checksum of a byte list. -/
def zlibCrc32 (data : List Nat) : Nat :=
  (data.foldl crc32Byte 0xFFFFFFFF) ^^^ 0xFFFFFFFF

/-- Embedding of `_calc_crc32`: CRC-32 of the data as 4 big-endian bytes. -/
def calcCrc32 (data : List Nat) : List Nat :=
  [(zlibCrc32 data >>> 24) &&& 255, (zlibCrc32 data >>> 16) &&& 255,
   (zlibCrc32 data >>> 8) &&& 255, zlibCrc32 data &&& 255]

/-- Embedding of `struct header`: 2 magic bytes, one reserved byte, the
file-state byte.  Note that the parser validates none of them. -/
structure Header where
  magic : List Nat
  unk0 : Nat
  fileState : Nat
deriving DecidableEq

/-- Serialization of `struct header` (cstruct `dumps`). -/
def Header.dumps (h : Header) : List Nat :=
  h.magic ++ [h.unk0, h.fileState]

/-- Parse `struct header` from the stream. -/
def parseHeader (s : List Nat) : Option (Header × List Nat) :=
  match readBytes 2 s with
  | none => none
  | some (magic, s1) =>
    match readByte s1 with
    | none => none
    | some (u0, s2) =>
      match readByte s2 with
      | none => none
      | some (fs, s3) => some ({ magic := magic, unk0 := u0, fileState := fs }, s3)

/-- Embedding of `struct header_saved_tab`. -/
structure SavedTab where
  filePathLength : Nat
  filePath : List Nat
  fileSize : Nat
  encoding : Nat
  carriageReturnType : Nat
  timestamp : Nat
  sha256 : List Nat
  unk : List Nat
deriving DecidableEq

/-- Serialization of `struct header_saved_tab`. -/
def SavedTab.dumps (t : SavedTab) : List Nat :=
  encodeUleb t.filePathLength ++ encodeWchars t.filePath ++ encodeUleb t.fileSize ++
    encodeUleb t.encoding ++ encodeUleb t.carriageReturnType ++ encodeUleb t.timestamp ++
    t.sha256 ++ t.unk

/-- Parse `struct header_saved_tab`. -/
def parseSavedTab (s : List Nat) : Option (SavedTab × List Nat) :=
  match readUleb s with
  | none => none
  | some (plen, s1) =>
    match readWchars plen s1 with
    | none => none
    | some (path, s2) =>
      match readUleb s2 with
      | none => none
      | some (fsz, s3) =>
        match readUleb s3 with
        | none => none
        | some (enc, s4) =>
          match readUleb s4 with
          | none => none
          | some (crt, s5) =>
            match readUleb s5 with
            | none => none
            | some (ts, s6) =>
              match readBytes 32 s6 with
              | none => none
              | some (sha, s7) =>
                match readBytes 6 s7 with
                | none => none
                | some (u, s8) =>
                  some ({ filePathLength := plen, filePath := path, fileSize := fsz,
                          encoding := enc, carriageReturnType := crt, timestamp := ts,
                          sha256 := sha, unk := u }, s8)

/-- Embedding of `struct header_unsaved_tab`. -/
structure UnsavedTab where
  unk0 : Nat
  fileSize : Nat
  fileSizeDuplicate : Nat
  unk1 : Nat
  unk2 : Nat
deriving DecidableEq

/-- Serialization of `struct header_unsaved_tab`. -/
def UnsavedTab.dumps (t : UnsavedTab) : List Nat :=
  t.unk0 :: encodeUleb t.fileSize ++ encodeUleb t.fileSizeDuplicate ++ [t.unk1, t.unk2]

/-- Parse `struct header_unsaved_tab`. -/
def parseUnsavedTab (s : List Nat) : Option (UnsavedTab × List Nat) :=
  match readByte s with
  | none => none
  | some (u0, s1) =>
    match readUleb s1 with
    | none => none
    | some (fsz, s2) =>
      match readUleb s2 with
      | none => none
      | some (dup, s3) =>
        match readByte s3 with
        | none => none
        | some (u1, s4) =>
          match readByte s4 with
          | none => none
          | some (u2, s5) =>
            some ({ unk0 := u0, fileSize := fsz, fileSizeDuplicate := dup,
                    unk1 := u1, unk2 := u2 }, s5)

/-- The metadata record: either variant, as selected by the fileState byte. -/
inductive Tab where
  | saved : SavedTab → Tab
  | unsaved : UnsavedTab → Tab
deriving DecidableEq

/-- The `fileSize` field, present in both metadata variants. -/
def Tab.fileSize : Tab → Nat
  | .saved t => t.fileSize
  | .unsaved t => t.fileSize

/-- Serialization of the metadata record. -/
def Tab.dumps : Tab → List Nat
  | .saved t => t.dumps
  | .unsaved t => t.dumps

/-- Embedding of the metadata dispatch (lines 115-119 of the source):
`header_saved_tab` if `fileState == 0x01`, else `header_unsaved_tab`.
No other `fileState` value is rejected. -/
def parseTabMeta (h : Header) (s : List Nat) : Option (Tab × List Nat) :=
  if h.fileState = 1 then
    match parseSavedTab s with
    | none => none
    | some (t, s2) => some (Tab.saved t, s2)
  else
    match parseUnsavedTab s with
    | none => none
    | some (t, s2) => some (Tab.unsaved t, s2)

/-- Embedding of `struct single_data_block`. -/
structure SingleDataBlock where
  offset : Nat
  nDeleted : Nat
  nAdded : Nat
  data : List Nat
  unk : List Nat
  crc32 : List Nat
deriving DecidableEq

/-- Serialization of `struct single_data_block`, checksum field excluded. -/
def SingleDataBlock.dumpsNoCrc (d : SingleDataBlock) : List Nat :=
  encodeUleb d.offset ++ encodeUleb d.nDeleted ++ encodeUleb d.nAdded ++
    encodeWchars d.data ++ d.unk

/-- Serialization of `struct single_data_block` (cstruct `dumps`). -/
def SingleDataBlock.dumps (d : SingleDataBlock) : List Nat :=
  encodeUleb d.offset ++ encodeUleb d.nDeleted ++ encodeUleb d.nAdded ++
    encodeWchars d.data ++ d.unk ++ d.crc32

/-- Parse `struct single_data_block`. -/
def parseSingleDataBlock (s : List Nat) : Option (SingleDataBlock × List Nat) :=
  match readUleb s with
  | none => none
  | some (off, s1) =>
    match readUleb s1 with
    | none => none
    | some (nDel, s2) =>
      match readUleb s2 with
      | none => none
      | some (nAdd, s3) =>
        match readWchars nAdd s3 with
        | none => none
        | some (data, s4) =>
          match readBytes 1 s4 with
          | none => none
          | some (u, s5) =>
            match readBytes 4 s5 with
            | none => none
            | some (crc, s6) =>
              some ({ offset := off, nDeleted := nDel, nAdded := nAdd,
                      data := data, unk := u, crc32 := crc }, s6)

/-- Embedding of `struct multi_data_extra_header`. -/
structure MultiDataExtraHeader where
  unk : List Nat
  crc32 : List Nat
deriving DecidableEq

/-- Parse `struct multi_data_extra_header`. -/
def parseMultiDataExtraHeader (s : List Nat) : Option (MultiDataExtraHeader × List Nat) :=
  match readBytes 4 s with
  | none => none
  | some (u, s1) =>
    match readBytes 4 s1 with
    | none => none
    | some (crc, s2) => some ({ unk := u, crc32 := crc }, s2)

/-- Embedding of `struct multi_data_block`. -/
structure MultiDataBlock where
  offset : Nat
  nDeleted : Nat
  nAdded : Nat
  data : List Nat
  crc32 : List Nat
deriving DecidableEq

/-- Serialization of `struct multi_data_block`, checksum field excluded. -/
def MultiDataBlock.dumpsNoCrc (d : MultiDataBlock) : List Nat :=
  encodeUleb d.offset ++ encodeUleb d.nDeleted ++ encodeUleb d.nAdded ++
    encodeWchars d.data

/-- Serialization of `struct multi_data_block` (cstruct `dumps`).  Note the
checksum bytes themselves are part of the serialization. -/
def MultiDataBlock.dumps (d : MultiDataBlock) : List Nat :=
  encodeUleb d.offset ++ encodeUleb d.nDeleted ++ encodeUleb d.nAdded ++
    encodeWchars d.data ++ d.crc32

/-- Parse `struct multi_data_block`.  The parser guarantees
`data.length = nAdded` (`parseMultiDataBlock_data_length`). -/
def parseMultiDataBlock (s : List Nat) : Option (MultiDataBlock × List Nat) :=
  match readUleb s with
  | none => none
  | some (off, s1) =>
    match readUleb s1 with
    | none => none
    | some (nDel, s2) =>
      match readUleb s2 with
      | none => none
      | some (nAdd, s3) =>
        match readWchars nAdd s3 with
        | none => none
        | some (data, s4) =>
          match readBytes 4 s4 with
          | none => none
          | some (crc, s5) =>
            some ({ offset := off, nDeleted := nDel, nAdded := nAdd,
                    data := data, crc32 := crc }, s5)

/-- Embedding of Python `list.insert`: insert before index `i`, clamping to
an append when `i` exceeds the current length. -/
def pyListInsert (l : List Nat) (i : Nat) (a : Nat) : List Nat :=
  l.take i ++ a :: l.drop i

/-- Embedding of the insertion loop
`for idx in range(nAdded): text.insert(offset + idx, data[idx])`
(iterating over the block's decoded characters). -/
def insertLoop (text : List Nat) (offset : Nat) (data : List Nat) : List Nat :=
  match data with
  | [] => text
  | c :: rest => insertLoop (pyListInsert text offset c) (offset + 1) rest

/-- Embedding of the body of the multi-block replay loop (lines 170-193):
given the decoded block and the current live buffer, deleted accumulator and
warning count, produce their new values.  A CRC mismatch is counted as one
warning, and is only ever checked in the `nAdded > 0` branch. -/
def stepBlock (includeDeletedContent : Bool) (de : MultiDataBlock)
    (text deleted : List Nat) (warn : Nat) : List Nat × List Nat × Nat :=
  if 0 < de.nAdded then
    (insertLoop text de.offset de.data, deleted,
     if de.crc32 ≠ calcCrc32 de.dumps then warn + 1 else warn)
  else if 0 < de.nDeleted then
    (text.take de.offset ++ text.drop (de.offset + de.nDeleted),
     if includeDeletedContent then
       deleted ++ (text.drop de.offset).take de.nDeleted
     else deleted,
     warn)
  else (text, deleted, warn)

/-- Embedding of the `while True` replay loop: parse `multi_data_block`
records until any parse failure (Python catches `EOFError` wherever it
occurs inside the record), applying each decoded block in file order.  The
fuel argument makes the definition structural; every successful parse
consumes at least one byte (`parseMultiDataBlock_length_lt`), so fuel
`s.length + 1` never runs out (`multiLoopF_congr`). -/
def multiLoopF (includeDeletedContent : Bool) :
    Nat → List Nat → List Nat → List Nat → Nat → List Nat × List Nat × Nat
  | 0, _, text, deleted, warn => (text, deleted, warn)
  | fuel + 1, s, text, deleted, warn =>
    match parseMultiDataBlock s with
    | none => (text, deleted, warn)
    | some (de, s2) =>
      let r := stepBlock includeDeletedContent de text deleted warn
      multiLoopF includeDeletedContent fuel s2 r.1 r.2.1 r.2.2

/-- Code units of a string (ASCII strings only are used here, so
`Char.toNat` is the UTF-16 code unit). -/
def strUnits (s : String) : List Nat :=
  s.data.map Char.toNat

/-- The fixed deleted-content delimiter appended at line 199. -/
def delim : List Nat :=
  strUnits (" --- DELETED-CONTENT: ")

/-- The output of one tab-file parse: the recovered content (as code units)
and the number of checksum-mismatch warnings that were logged. -/
structure TabContentRecord where
  content : List Nat
  warnings : Nat
deriving DecidableEq

/-- Embedding of `WindowsNotepadTabContent._process_tab_file`: full decode of
one tab file.  `none` models an uncaught exception (`EOFError` outside of
the multi-block loop). -/
def processTabFile (s : List Nat) (includeDeletedContent : Bool) : Option TabContentRecord :=
  match parseHeader s with
  | none => none
  | some (header, s1) =>
    match parseTabMeta header s1 with
    | none => none
    | some (tab, s2) =>
      if tab.fileSize ≠ 0 then
        match parseSingleDataBlock s2 with
        | none => none
        | some (de, _) =>
          let actual := calcCrc32 (header.dumps.drop 3 ++ tab.dumps ++
            de.dumps.take (de.dumps.length - 4))
          some { content := de.data, warnings := if de.crc32 ≠ actual then 1 else 0 }
      else
        match parseMultiDataExtraHeader s2 with
        | none => none
        | some (mdeh, s3) =>
          let actualHeader := calcCrc32 (header.dumps.drop 3 ++ tab.dumps ++ mdeh.unk)
          let w0 : Nat := if mdeh.crc32 ≠ actualHeader then 1 else 0
          let r := multiLoopF includeDeletedContent (s3.length + 1) s3 [] [] w0
          some { content := if includeDeletedContent then r.1 ++ delim ++ r.2.1 else r.1,
                 warnings := r.2.2 }

/-- Replay loop of the structural decode, with all checksum logic removed;
written from the specification of the Edit-Log Reconstructor, for
comparison with `multiLoopF`. -/
def contentLoopF (includeDeletedContent : Bool) :
    Nat → List Nat → List Nat → List Nat → List Nat × List Nat
  | 0, _, text, deleted => (text, deleted)
  | fuel + 1, s, text, deleted =>
    match parseMultiDataBlock s with
    | none => (text, deleted)
    | some (de, s2) =>
      if 0 < de.nAdded then
        contentLoopF includeDeletedContent fuel s2 (insertLoop text de.offset de.data) deleted
      else if 0 < de.nDeleted then
        contentLoopF includeDeletedContent fuel s2
          (text.take de.offset ++ text.drop (de.offset + de.nDeleted))
          (if includeDeletedContent then
             deleted ++ (text.drop de.offset).take de.nDeleted
           else deleted)
      else contentLoopF includeDeletedContent fuel s2 text deleted

/-- Structural decode following the specification: identical parsing and
replay, but no checksum comparison anywhere; returns only the recovered
content.  Used to state that checksum mismatches never affect the result. -/
def processTabFileNoCrc (s : List Nat) (includeDeletedContent : Bool) : Option (List Nat) :=
  match parseHeader s with
  | none => none
  | some (header, s1) =>
    match parseTabMeta header s1 with
    | none => none
    | some (tab, s2) =>
      if tab.fileSize ≠ 0 then
        match parseSingleDataBlock s2 with
        | none => none
        | some (de, _) => some de.data
      else
        match parseMultiDataExtraHeader s2 with
        | none => none
        | some (_, s3) =>
          let r := contentLoopF includeDeletedContent (s3.length + 1) s3 [] []
          some (if includeDeletedContent then r.1 ++ delim ++ r.2 else r.1)

/-! Basic properties of the readers and of serialization. -/

lemma readByte_length {s : List Nat} {b : Nat} {s2 : List Nat}
    (h : readByte s = some (b, s2)) : s2.length < s.length := by
  cases s with
  | nil => simp [readByte] at h
  | cons a t =>
    simp [readByte] at h
    obtain ⟨-, h2⟩ := h
    subst h2
    simp

lemma readBytes_length {n : Nat} {s bs s2 : List Nat}
    (h : readBytes n s = some (bs, s2)) : s2.length = s.length - n ∧ n ≤ s.length := by
  unfold readBytes at h
  split at h
  · simp at h
    obtain ⟨-, h2⟩ := h
    subst h2
    simp
    assumption
  · simp at h

lemma readUleb_length : ∀ {s : List Nat} {v : Nat} {s2 : List Nat},
    readUleb s = some (v, s2) → s2.length < s.length := by
  intro s
  induction s with
  | nil => intro v s2 h; simp [readUleb] at h
  | cons b t ih =>
    intro v s2 h
    simp only [readUleb] at h
    split at h
    · simp at h
      obtain ⟨-, h2⟩ := h
      subst h2
      simp
    · cases hr : readUleb t with
      | none => rw [hr] at h; simp at h
      | some p =>
        obtain ⟨v2, s3⟩ := p
        rw [hr] at h
        simp at h
        obtain ⟨-, h2⟩ := h
        subst h2
        have := ih hr
        simp only [List.length_cons]
        omega

lemma readWchar_length {s : List Nat} {u : Nat} {s2 : List Nat}
    (h : readWchar s = some (u, s2)) : s2.length + 2 = s.length := by
  cases s with
  | nil => simp [readWchar] at h
  | cons lo t =>
    cases t with
    | nil => simp [readWchar] at h
    | cons hi t2 =>
      simp [readWchar] at h
      obtain ⟨-, h2⟩ := h
      subst h2
      simp only [List.length_cons]

lemma readWchars_length : ∀ {n : Nat} {s us s2 : List Nat},
    readWchars n s = some (us, s2) → s2.length ≤ s.length ∧ us.length = n := by
  intro n
  induction n with
  | zero =>
    intro s us s2 h
    simp [readWchars] at h
    obtain ⟨h1, h2⟩ := h
    subst h1
    subst h2
    simp
  | succ m ih =>
    intro s us s2 h
    simp only [readWchars] at h
    cases hw : readWchar s with
    | none => rw [hw] at h; simp at h
    | some p =>
      obtain ⟨u, sa⟩ := p
      rw [hw] at h
      dsimp only at h
      cases hr : readWchars m sa with
      | none => rw [hr] at h; simp at h
      | some q =>
        obtain ⟨us2, sb⟩ := q
        rw [hr] at h
        simp at h
        obtain ⟨h1, h2⟩ := h
        subst h1
        subst h2
        have hwl := readWchar_length hw
        have hrl := ih hr
        constructor
        · omega
        · simp [hrl.2]

/-- A successfully decoded `multi_data_block` consumed at least one byte. -/
lemma parseMultiDataBlock_length_lt {s : List Nat} {de : MultiDataBlock} {s2 : List Nat}
    (h : parseMultiDataBlock s = some (de, s2)) : s2.length < s.length := by
  unfold parseMultiDataBlock at h
  cases h1 : readUleb s with
  | none => rw [h1] at h; simp at h
  | some p1 =>
    obtain ⟨off, sa⟩ := p1
    rw [h1] at h
    dsimp only at h
    cases h2 : readUleb sa with
    | none => rw [h2] at h; simp at h
    | some p2 =>
      obtain ⟨nDel, sb⟩ := p2
      rw [h2] at h
      dsimp only at h
      cases h3 : readUleb sb with
      | none => rw [h3] at h; simp at h
      | some p3 =>
        obtain ⟨nAdd, sc⟩ := p3
        rw [h3] at h
        dsimp only at h
        cases h4 : readWchars nAdd sc with
        | none => rw [h4] at h; simp at h
        | some p4 =>
          obtain ⟨data, sd⟩ := p4
          rw [h4] at h
          dsimp only at h
          cases h5 : readBytes 4 sd with
          | none => rw [h5] at h; simp at h
          | some p5 =>
            obtain ⟨crc, se⟩ := p5
            rw [h5] at h
            simp at h
            obtain ⟨-, h6⟩ := h
            subst h6
            have l1 := readUleb_length h1
            have l2 := readUleb_length h2
            have l3 := readUleb_length h3
            have l4 := (readWchars_length h4).1
            have l5 := readBytes_length h5
            omega

/-- A successfully decoded `multi_data_block` carries exactly `nAdded`
decoded characters. -/
lemma parseMultiDataBlock_data_length {s : List Nat} {de : MultiDataBlock} {s2 : List Nat}
    (h : parseMultiDataBlock s = some (de, s2)) : de.data.length = de.nAdded := by
  unfold parseMultiDataBlock at h
  cases h1 : readUleb s with
  | none => rw [h1] at h; simp at h
  | some p1 =>
    obtain ⟨off, sa⟩ := p1
    rw [h1] at h
    dsimp only at h
    cases h2 : readUleb sa with
    | none => rw [h2] at h; simp at h
    | some p2 =>
      obtain ⟨nDel, sb⟩ := p2
      rw [h2] at h
      dsimp only at h
      cases h3 : readUleb sb with
      | none => rw [h3] at h; simp at h
      | some p3 =>
        obtain ⟨nAdd, sc⟩ := p3
        rw [h3] at h
        dsimp only at h
        cases h4 : readWchars nAdd sc with
        | none => rw [h4] at h; simp at h
        | some p4 =>
          obtain ⟨data, sd⟩ := p4
          rw [h4] at h
          dsimp only at h
          cases h5 : readBytes 4 sd with
          | none => rw [h5] at h; simp at h
          | some p5 =>
            obtain ⟨crc, se⟩ := p5
            rw [h5] at h
            simp at h
            obtain ⟨h6, -⟩ := h
            subst h6
            exact (readWchars_length h4).2

/-- Fuel irrelevance for `encodeUlebAux`: any fuel at least `n` gives the
same serialization, so `encodeUleb` computes the cstruct write loop. -/
lemma encodeUlebAux_congr : ∀ (f1 f2 n : Nat), n ≤ f1 → n ≤ f2 →
    encodeUlebAux f1 n = encodeUlebAux f2 n := by
  intro f1
  induction f1 with
  | zero =>
    intro f2 n h1 h2
    have hn : n = 0 := by omega
    subst hn
    cases f2 with
    | zero => rfl
    | succ m => simp [encodeUlebAux]
  | succ k ih =>
    intro f2 n h1 h2
    cases f2 with
    | zero =>
      have hn : n = 0 := by omega
      subst hn
      simp [encodeUlebAux]
    | succ m =>
      simp only [encodeUlebAux]
      by_cases h : n < 128
      · simp [h]
      · simp only [if_neg h]
        have hdiv : n / 128 < n := Nat.div_lt_self (by omega) (by omega)
        rw [ih m (n / 128) (by omega) (by omega)]

/-- The defining equation of the cstruct `uleb128` write loop. -/
lemma encodeUleb_eq (n : Nat) :
    encodeUleb n = if n < 128 then [n] else (n % 128 + 128) :: encodeUleb (n / 128) := by
  unfold encodeUleb
  by_cases h : n < 128
  · cases n with
    | zero => simp [encodeUlebAux]
    | succ m => simp [encodeUlebAux, h]
  · cases n with
    | zero => omega
    | succ m =>
      simp only [encodeUlebAux, if_neg h]
      have hdiv : (m + 1) / 128 < m + 1 := Nat.div_lt_self (by omega) (by omega)
      rw [encodeUlebAux_congr m ((m + 1) / 128) ((m + 1) / 128) (by omega) (by omega)]

/-- Fuel irrelevance for the replay loop: any fuel exceeding the remaining
stream length gives the same result, since every decoded block consumes at
least one byte.  Hence `processTabFile`, which supplies `s.length + 1`,
models the unbounded `while True` loop. -/
lemma multiLoopF_congr (inc : Bool) : ∀ (f1 f2 : Nat) (s text deleted : List Nat) (warn : Nat),
    s.length < f1 → s.length < f2 →
    multiLoopF inc f1 s text deleted warn = multiLoopF inc f2 s text deleted warn := by
  intro f1
  induction f1 with
  | zero => intro f2 s text deleted warn h1 h2; omega
  | succ n ih =>
    intro f2 s text deleted warn h1 h2
    cases f2 with
    | zero => omega
    | succ m =>
      simp only [multiLoopF]
      cases hp : parseMultiDataBlock s with
      | none => rfl
      | some p =>
        obtain ⟨de, s2⟩ := p
        dsimp only
        have hlt := parseMultiDataBlock_length_lt hp
        exact ih m s2 _ _ _ (by omega) (by omega)

/-! Characterization of the per-character insertion loop. -/

lemma pyListInsert_take (t : List Nat) (o : Nat) (c : Nat) :
    (pyListInsert t o c).take (o + 1) = t.take o ++ [c] := by
  unfold pyListInsert
  rw [List.take_append_eq_append_take]
  rw [List.take_of_length_le (by rw [List.length_take]; omega)]
  congr 1
  rcases le_or_lt o t.length with h | h
  · have hk : o + 1 - (t.take o).length = 1 := by rw [List.length_take]; omega
    rw [hk]
    simp
  · have hd : t.drop o = [] := List.drop_eq_nil_of_le (by omega)
    have hk : o + 1 - (t.take o).length = (o - t.length) + 1 := by rw [List.length_take]; omega
    rw [hk, hd, List.take_succ_cons, List.take_nil]

lemma pyListInsert_drop (t : List Nat) (o : Nat) (c : Nat) :
    (pyListInsert t o c).drop (o + 1) = t.drop o := by
  unfold pyListInsert
  rw [List.drop_append_eq_append_drop]
  rw [List.drop_eq_nil_of_le (by rw [List.length_take]; omega)]
  rcases le_or_lt o t.length with h | h
  · have hk : o + 1 - (t.take o).length = 1 := by rw [List.length_take]; omega
    rw [hk]
    simp
  · have hd : t.drop o = [] := List.drop_eq_nil_of_le (by omega)
    have hk : o + 1 - (t.take o).length = (o - t.length) + 1 := by rw [List.length_take]; omega
    rw [hk, hd, List.drop_succ_cons, List.drop_nil]
    simp

/-- Inserting the block's characters one at a time at `offset + idx`, the way
the Python loop does, is exactly the spec's single splice at `offset` (with
Python's clamping semantics: an out-of-range offset appends at the end). -/
lemma insertLoop_eq (data : List Nat) : ∀ (text : List Nat) (offset : Nat),
    insertLoop text offset data = text.take offset ++ data ++ text.drop offset := by
  induction data with
  | nil =>
    intro text offset
    simp only [insertLoop, List.nil_append, List.append_nil]
    exact (List.take_append_drop offset text).symm
  | cons c rest ih =>
    intro text offset
    simp only [insertLoop]
    rw [ih, pyListInsert_take, pyListInsert_drop]
    simp

/-! Correspondence between the replay loop with checksum accounting and the
checksum-free replay loop. -/

lemma multiLoopF_fst (inc : Bool) (fuel : Nat) :
    ∀ (s text deleted : List Nat) (warn : Nat),
    (multiLoopF inc fuel s text deleted warn).1 = (contentLoopF inc fuel s text deleted).1 := by
  induction fuel with
  | zero => intro s text deleted warn; rfl
  | succ n ih =>
    intro s text deleted warn
    simp only [multiLoopF, contentLoopF]
    cases hp : parseMultiDataBlock s with
    | none => rfl
    | some p =>
      obtain ⟨de, s2⟩ := p
      dsimp only
      by_cases ha : 0 < de.nAdded
      · simp only [stepBlock, if_pos ha]
        exact ih s2 _ _ _
      · by_cases hd : 0 < de.nDeleted
        · simp only [stepBlock, if_neg ha, if_pos hd]
          exact ih s2 _ _ _
        · simp only [stepBlock, if_neg ha, if_neg hd]
          exact ih s2 _ _ _

lemma multiLoopF_snd (inc : Bool) (fuel : Nat) :
    ∀ (s text deleted : List Nat) (warn : Nat),
    (multiLoopF inc fuel s text deleted warn).2.1 = (contentLoopF inc fuel s text deleted).2 := by
  induction fuel with
  | zero => intro s text deleted warn; rfl
  | succ n ih =>
    intro s text deleted warn
    simp only [multiLoopF, contentLoopF]
    cases hp : parseMultiDataBlock s with
    | none => rfl
    | some p =>
      obtain ⟨de, s2⟩ := p
      dsimp only
      by_cases ha : 0 < de.nAdded
      · simp only [stepBlock, if_pos ha]
        exact ih s2 _ _ _
      · by_cases hd : 0 < de.nDeleted
        · simp only [stepBlock, if_neg ha, if_pos hd]
          exact ih s2 _ _ _
        · simp only [stepBlock, if_neg ha, if_neg hd]
          exact ih s2 _ _ _

/-! Claims. -/

/-- Claim C1: in the multi-block layout, every decoded block with
`nAdded > 0` has its `nAdded` characters spliced into the live buffer at
position `offset`, shifting characters previously at and beyond `offset`
rightward (the deleted accumulator is untouched); replaying the blocks
`(offset 0, nAdded 5, data "hello")` and `(offset 5, nAdded 6, data " world")`
against an empty buffer yields the final content `"hello world"`. -/
theorem claim1_insert_replay :
    (∀ (s : List Nat) (de : MultiDataBlock) (s2 : List Nat) (inc : Bool)
        (text deleted : List Nat) (warn : Nat),
      parseMultiDataBlock s = some (de, s2) → 0 < de.nAdded →
      (stepBlock inc de text deleted warn).1 =
          text.take de.offset ++ de.data ++ text.drop de.offset
        ∧ (stepBlock inc de text deleted warn).2.1 = deleted)
    ∧ (processTabFile ([78, 80, 0, 0] ++ [0, 0, 0, 0, 0] ++ [0, 0, 0, 0] ++ [0, 0, 0, 0] ++
          ([0, 0, 5] ++ [104, 0, 101, 0, 108, 0, 108, 0, 111, 0] ++ [0, 0, 0, 0]) ++
          ([5, 0, 6] ++ [32, 0, 119, 0, 111, 0, 114, 0, 108, 0, 100, 0] ++ [0, 0, 0, 0]))
        false).map (fun r => r.content) = some (strUnits ("hello world")) := by
  constructor
  · intro s de s2 inc text deleted warn hp ha
    refine ⟨?_, ?_⟩
    · simp only [stepBlock, if_pos ha]
      exact insertLoop_eq de.data text de.offset
    · simp [stepBlock, if_pos ha]
  · decide

/-- Witness for claim C1 at a concrete decoded block. -/
theorem claim1_insert_replay_witness :
    (stepBlock false
        { offset := 2, nDeleted := 0, nAdded := 1, data := [65], crc32 := [7, 7, 7, 7] }
        [10, 11, 12] [] 0).1 =
      [10, 11, 12].take 2 ++ [65] ++ [10, 11, 12].drop 2
    ∧ (stepBlock false
        { offset := 2, nDeleted := 0, nAdded := 1, data := [65], crc32 := [7, 7, 7, 7] }
        [10, 11, 12] [] 0).2.1 = [] :=
  claim1_insert_replay.1 ([2, 0, 1] ++ [65, 0] ++ [7, 7, 7, 7])
    { offset := 2, nDeleted := 0, nAdded := 1, data := [65], crc32 := [7, 7, 7, 7] } []
    false [10, 11, 12] [] 0 (by decide) (by decide)

/-- Claim C2: every decoded block with `nAdded = 0` and `nDeleted > 0`
removes the range `[offset, offset + nDeleted)` from the live buffer, first
appending exactly those characters to the deleted accumulator when recovery
is enabled; with recovery enabled the final output is the live buffer, the
fixed delimiter, then the accumulator in block order — concretely, after
building `"hello world"`, the block `(offset 5, nDeleted 6)` yields content
`"hello"`, and the recovered output is `"hello" ++ delim ++ " world"`. -/
theorem claim2_delete_capture :
    (∀ (s : List Nat) (de : MultiDataBlock) (s2 : List Nat) (inc : Bool)
        (text deleted : List Nat) (warn : Nat),
      parseMultiDataBlock s = some (de, s2) → de.nAdded = 0 → 0 < de.nDeleted →
      stepBlock inc de text deleted warn =
        (text.take de.offset ++ text.drop (de.offset + de.nDeleted),
         if inc then deleted ++ (text.drop de.offset).take de.nDeleted else deleted,
         warn))
    ∧ (processTabFile ([78, 80, 0, 0] ++ [0, 0, 0, 0, 0] ++ [0, 0, 0, 0] ++ [0, 0, 0, 0] ++
          ([0, 0, 5] ++ [104, 0, 101, 0, 108, 0, 108, 0, 111, 0] ++ [0, 0, 0, 0]) ++
          ([5, 0, 6] ++ [32, 0, 119, 0, 111, 0, 114, 0, 108, 0, 100, 0] ++ [0, 0, 0, 0]) ++
          ([5, 6, 0] ++ [0, 0, 0, 0]))
        true).map (fun r => r.content) =
        some (strUnits ("hello") ++ delim ++ strUnits (" world")) := by
  constructor
  · intro s de s2 inc text deleted warn hp h0 hd
    have ha : ¬ 0 < de.nAdded := by omega
    simp [stepBlock, ha, hd]
  · decide

/-- Witness for claim C2 at a concrete decoded block. -/
theorem claim2_delete_capture_witness :
    stepBlock true { offset := 1, nDeleted := 1, nAdded := 0, data := [], crc32 := [0, 0, 0, 0] }
        [1, 2, 3] [9] 5 =
      ([1, 2, 3].take 1 ++ [1, 2, 3].drop (1 + 1),
       if true then [9] ++ ([1, 2, 3].drop 1).take 1 else [9],
       5) :=
  claim2_delete_capture.1 [1, 1, 0, 0, 0, 0, 0]
    { offset := 1, nDeleted := 1, nAdded := 0, data := [], crc32 := [0, 0, 0, 0] } []
    true [1, 2, 3] [9] 5 (by decide) (by decide) (by decide)

/-- Claim C8: every decoded block with `nAdded = 0` and `nDeleted = 0` is a
no-op: the live buffer, the deleted accumulator and the warning count are
left exactly unchanged, and the replay loop continues with the next block. -/
theorem claim8_noop_block :
    ∀ (s : List Nat) (de : MultiDataBlock) (s2 : List Nat) (inc : Bool)
      (text deleted : List Nat) (warn fuel : Nat),
      parseMultiDataBlock s = some (de, s2) → de.nAdded = 0 → de.nDeleted = 0 →
      stepBlock inc de text deleted warn = (text, deleted, warn)
      ∧ multiLoopF inc (fuel + 1) s text deleted warn =
          multiLoopF inc fuel s2 text deleted warn := by
  intro s de s2 inc text deleted warn fuel hp h0 hd
  have hstep : stepBlock inc de text deleted warn = (text, deleted, warn) := by
    have ha : ¬ 0 < de.nAdded := by omega
    have hb : ¬ 0 < de.nDeleted := by omega
    simp [stepBlock, ha, hb]
  refine ⟨hstep, ?_⟩
  simp only [multiLoopF]
  rw [hp]
  dsimp only
  rw [hstep]

/-- Witness for claim C8 at a concrete decoded block. -/
theorem claim8_noop_block_witness :
    stepBlock true { offset := 3, nDeleted := 0, nAdded := 0, data := [], crc32 := [1, 2, 3, 4] }
        [1] [2] 7 = ([1], [2], 7)
    ∧ multiLoopF true (0 + 1) [3, 0, 0, 1, 2, 3, 4] [1] [2] 7 =
        multiLoopF true 0 [] [1] [2] 7 :=
  claim8_noop_block [3, 0, 0, 1, 2, 3, 4]
    { offset := 3, nDeleted := 0, nAdded := 0, data := [], crc32 := [1, 2, 3, 4] } []
    true [1] [2] 7 0 (by decide) (by decide) (by decide)

/-- Claim C9: a decoded delete block whose range end `offset + nDeleted`
reaches past the live buffer's length never fails: the range is clamped to
the buffer, only the characters actually present from `offset` on are
removed, and with recovery enabled only those characters are captured. -/
theorem claim9_delete_clamped :
    ∀ (s : List Nat) (de : MultiDataBlock) (s2 : List Nat) (inc : Bool)
      (text deleted : List Nat) (warn : Nat),
      parseMultiDataBlock s = some (de, s2) → de.nAdded = 0 → 0 < de.nDeleted →
      text.length ≤ de.offset + de.nDeleted →
      stepBlock inc de text deleted warn =
        (text.take de.offset,
         if inc then deleted ++ text.drop de.offset else deleted,
         warn) := by
  intro s de s2 inc text deleted warn hp h0 hd hlen
  have ha : ¬ 0 < de.nAdded := by omega
  have h1 : text.drop (de.offset + de.nDeleted) = [] := List.drop_eq_nil_of_le hlen
  have h2 : (text.drop de.offset).take de.nDeleted = text.drop de.offset := by
    apply List.take_of_length_le
    simp only [List.length_drop]
    omega
  simp [stepBlock, ha, hd, h1, h2]

/-- Witness for claim C9 at a concrete decoded block. -/
theorem claim9_delete_clamped_witness :
    stepBlock true { offset := 1, nDeleted := 5, nAdded := 0, data := [], crc32 := [0, 0, 0, 0] }
        [10, 11] [] 0 =
      ([10, 11].take 1, if true then [] ++ [10, 11].drop 1 else [], 0) :=
  claim9_delete_clamped [1, 5, 0, 0, 0, 0, 0]
    { offset := 1, nDeleted := 5, nAdded := 0, data := [], crc32 := [0, 0, 0, 0] } []
    true [10, 11] [] 0 (by decide) (by decide) (by decide) (by decide)

/-- Claim C3: the layout choice is driven solely by the decoded metadata's
`fileSize` (whatever the header's fileState byte was): a nonzero `fileSize`
decodes exactly one `single_data_block` and returns its `data` field
verbatim as the entire content, with no replay; a zero `fileSize` uses the
multi-block layout (extra header, then repeated blocks replayed against the
live buffer). -/
theorem claim3_layout_by_fileSize (s : List Nat) (inc : Bool) (h : Header)
    (s1 : List Nat) (t : Tab) (s2 : List Nat)
    (hh : parseHeader s = some (h, s1)) (ht : parseTabMeta h s1 = some (t, s2)) :
    (t.fileSize ≠ 0 →
      (processTabFile s inc).map (fun r => r.content) =
        (parseSingleDataBlock s2).map (fun p => p.1.data))
    ∧ (t.fileSize = 0 →
      (processTabFile s inc).map (fun r => r.content) =
        (parseMultiDataExtraHeader s2).map (fun p =>
          if inc then
            (contentLoopF inc (p.2.length + 1) p.2 [] []).1 ++ delim ++
              (contentLoopF inc (p.2.length + 1) p.2 [] []).2
          else (contentLoopF inc (p.2.length + 1) p.2 [] []).1)) := by
  constructor
  · intro hfs
    unfold processTabFile
    rw [hh]
    dsimp only
    rw [ht]
    dsimp only
    rw [if_pos hfs]
    cases hs : parseSingleDataBlock s2 with
    | none => rfl
    | some p => rfl
  · intro hfs
    unfold processTabFile
    rw [hh]
    dsimp only
    rw [ht]
    dsimp only
    rw [if_neg (by omega : ¬ t.fileSize ≠ 0)]
    cases hm : parseMultiDataExtraHeader s2 with
    | none => rfl
    | some p =>
      obtain ⟨mdeh, s3⟩ := p
      simp [multiLoopF_fst, multiLoopF_snd]

/-- Witness for claim C3 at a concrete single-block stream. -/
theorem claim3_layout_by_fileSize_witness :
    (processTabFile ([78, 80, 0, 0] ++ [0, 1, 1, 0, 0] ++ [0, 0, 1, 65, 0, 0] ++
        [74, 136, 57, 128]) false).map (fun r => r.content) =
      (parseSingleDataBlock ([0, 0, 1, 65, 0, 0] ++ [74, 136, 57, 128])).map
        (fun p => p.1.data) :=
  (claim3_layout_by_fileSize
      ([78, 80, 0, 0] ++ [0, 1, 1, 0, 0] ++ [0, 0, 1, 65, 0, 0] ++ [74, 136, 57, 128]) false
      { magic := [78, 80], unk0 := 0, fileState := 0 }
      ([0, 1, 1, 0, 0] ++ [0, 0, 1, 65, 0, 0] ++ [74, 136, 57, 128])
      (Tab.unsaved { unk0 := 0, fileSize := 1, fileSizeDuplicate := 1, unk1 := 0, unk2 := 0 })
      ([0, 0, 1, 65, 0, 0] ++ [74, 136, 57, 128])
      (by decide) (by decide)).1 (by decide)

/-- Claim C10: when the metadata's `fileSize` is nonzero (single-block
layout), the include-deleted-content flag has no effect whatsoever: the
decoder returns the identical record for both flag values. -/
theorem claim10_flag_irrelevant_single (s : List Nat) (h : Header) (s1 : List Nat)
    (t : Tab) (s2 : List Nat)
    (hh : parseHeader s = some (h, s1)) (ht : parseTabMeta h s1 = some (t, s2))
    (hfs : t.fileSize ≠ 0) :
    processTabFile s true = processTabFile s false := by
  unfold processTabFile
  rw [hh]
  dsimp only
  rw [ht]
  dsimp only
  simp only [if_pos hfs]

/-- Witness for claim C10 at a concrete single-block stream. -/
theorem claim10_flag_irrelevant_single_witness :
    processTabFile ([78, 80, 0, 0] ++ [0, 1, 1, 0, 0] ++ [0, 0, 1, 65, 0, 0] ++
        [74, 136, 57, 128]) true =
      processTabFile ([78, 80, 0, 0] ++ [0, 1, 1, 0, 0] ++ [0, 0, 1, 65, 0, 0] ++
        [74, 136, 57, 128]) false :=
  claim10_flag_irrelevant_single
    ([78, 80, 0, 0] ++ [0, 1, 1, 0, 0] ++ [0, 0, 1, 65, 0, 0] ++ [74, 136, 57, 128])
    { magic := [78, 80], unk0 := 0, fileState := 0 }
    ([0, 1, 1, 0, 0] ++ [0, 0, 1, 65, 0, 0] ++ [74, 136, 57, 128])
    (Tab.unsaved { unk0 := 0, fileSize := 1, fileSizeDuplicate := 1, unk1 := 0, unk2 := 0 })
    ([0, 0, 1, 65, 0, 0] ++ [74, 136, 57, 128])
    (by decide) (by decide) (by decide)

set_option maxRecDepth 16384 in
/-- Claim C4 counterexample: a multi-block stream whose final record is
truncated after its first field (`offset` decodes, then end of stream)
still decodes successfully — the code treats an `EOFError` anywhere inside
the block decode as normal loop termination, not as a fatal
truncated-stream error as the claim states. -/
theorem claim4_counterexample :
    processTabFile ([78, 80, 0, 0] ++ [0, 0, 0, 0, 0] ++ [0, 0, 0, 0] ++
        [227, 138, 104, 118] ++ [0]) false =
      some { content := [], warnings := 0 }
    ∧ readUleb [0] = some (0, [])
    ∧ parseMultiDataBlock [0] = none := by
  refine ⟨by decide, by decide, by decide⟩

/-- Claim C4 amended: the multi-block record loop terminates successfully on
any block-decode failure — at the start of an attempt or mid-record alike —
so once the extra header has been decoded the decoder always returns a
result; the loop stops at the first failed attempt. -/
theorem claim4_loop_stops_on_any_eof (s : List Nat) (inc : Bool) (h : Header)
    (s1 : List Nat) (t : Tab) (s2 : List Nat) (mdeh : MultiDataExtraHeader) (s3 : List Nat)
    (hh : parseHeader s = some (h, s1)) (ht : parseTabMeta h s1 = some (t, s2))
    (hfs : t.fileSize = 0) (hm : parseMultiDataExtraHeader s2 = some (mdeh, s3)) :
    (∃ r, processTabFile s inc = some r)
    ∧ (∀ (s4 text deleted : List Nat) (warn fuel : Nat),
        parseMultiDataBlock s4 = none →
        multiLoopF inc (fuel + 1) s4 text deleted warn = (text, deleted, warn)) := by
  constructor
  · unfold processTabFile
    rw [hh]
    dsimp only
    rw [ht]
    dsimp only
    rw [if_neg (by omega : ¬ t.fileSize ≠ 0), hm]
    exact ⟨_, rfl⟩
  · intro s4 text deleted warn fuel hnone
    simp only [multiLoopF]
    rw [hnone]

/-- Witness for the amended claim C4 at a concrete truncated stream. -/
theorem claim4_loop_stops_on_any_eof_witness :
    ∃ r, processTabFile ([78, 80, 0, 0] ++ [0, 0, 0, 0, 0] ++ [0, 0, 0, 0] ++
        [227, 138, 104, 118] ++ [0]) false = some r :=
  (claim4_loop_stops_on_any_eof
      ([78, 80, 0, 0] ++ [0, 0, 0, 0, 0] ++ [0, 0, 0, 0] ++ [227, 138, 104, 118] ++ [0]) false
      { magic := [78, 80], unk0 := 0, fileState := 0 }
      ([0, 0, 0, 0, 0] ++ [0, 0, 0, 0] ++ [227, 138, 104, 118] ++ [0])
      (Tab.unsaved { unk0 := 0, fileSize := 0, fileSizeDuplicate := 0, unk1 := 0, unk2 := 0 })
      ([0, 0, 0, 0] ++ [227, 138, 104, 118] ++ [0])
      { unk := [0, 0, 0, 0], crc32 := [227, 138, 104, 118] } [0]
      (by decide) (by decide) (by decide) (by decide)).1

set_option maxRecDepth 16384 in
/-- Claim C7 counterexample: a stream whose first two bytes are not the
`NP` signature and whose fileState byte is 7 (neither 0 nor 1) decodes
without any error and produces an output record — the code validates
neither field, contrary to the claim's InvalidFormat behavior. -/
theorem claim7_counterexample :
    processTabFile ([65, 66, 3, 7] ++ [0, 1, 1, 0, 0] ++ [0, 0, 1, 65, 0, 0] ++
        [9, 9, 9, 9]) false =
      some { content := [65], warnings := 1 } := by
  decide

/-- Claim C7 amended: the header parser accepts any two signature bytes and
any fileState byte without validation — every 4-byte prefix parses, and any
fileState other than 1 merely selects the unsaved metadata shape. -/
theorem claim7_no_validation_amended :
    (∀ (a b c d : Nat) (s : List Nat),
      parseHeader (a :: b :: c :: d :: s) =
        some ({ magic := [a, b], unk0 := c, fileState := d }, s))
    ∧ (∀ (h : Header) (s : List Nat), h.fileState ≠ 1 →
        parseTabMeta h s =
          match parseUnsavedTab s with
          | none => none
          | some (t, s2) => some (Tab.unsaved t, s2)) := by
  constructor
  · intro a b c d s
    have h2 : 2 ≤ (a :: b :: c :: d :: s).length := by
      simp only [List.length_cons]
      omega
    simp [parseHeader, readBytes, if_pos h2, readByte]
  · intro h s hfs
    unfold parseTabMeta
    rw [if_neg hfs]

/-- Witness for the amended claim C7 at a concrete header. -/
theorem claim7_no_validation_amended_witness :
    parseTabMeta { magic := [65, 66], unk0 := 3, fileState := 7 } [0, 1, 1, 0, 0] =
      match parseUnsavedTab [0, 1, 1, 0, 0] with
      | none => none
      | some (t, s2) => some (Tab.unsaved t, s2) :=
  claim7_no_validation_amended.2 { magic := [65, 66], unk0 := 3, fileState := 7 }
    [0, 1, 1, 0, 0] (by decide)

set_option maxRecDepth 16384 in
/-- Claim C5 counterexample: a single-block stream whose stored checksum
equals the CRC-32 of the range the claim describes — header excluding only
the 2-byte signature, plus metadata, plus block bytes without the checksum
field — is still flagged as a mismatch (one warning): the code drops the
first three header bytes, not two. -/
theorem claim5_counterexample :
    processTabFile ([78, 80, 7, 0] ++ [0, 1, 1, 0, 0] ++ [0, 0, 1, 65, 0, 0] ++
        [67, 90, 191, 53]) false =
      some { content := [65], warnings := 1 }
    ∧ [67, 90, 191, 53] =
        calcCrc32 (({ magic := [78, 80], unk0 := 7, fileState := 0 } : Header).dumps.drop 2 ++
          (Tab.unsaved ({ unk0 := 0, fileSize := 1, fileSizeDuplicate := 1, unk1 := 0, unk2 := 0 } : UnsavedTab)).dumps ++
          ({ offset := 0, nDeleted := 0, nAdded := 1, data := [65], unk := [0], crc32 := [67, 90, 191, 53] } : SingleDataBlock).dumpsNoCrc) := by
  refine ⟨by decide, by decide⟩

/-- Claim C5 amended: the single-block and extra-header checksums are
compared against the CRC-32 of the header excluding its first three bytes
(signature and reserved byte — only the fileState byte remains), plus the
metadata, plus (respectively) the block bytes without the trailing checksum
field or the extra header's reserved bytes; each multi-block record with
`nAdded > 0` is checked against the CRC-32 of its full serialization
including the trailing checksum field, and records with `nAdded = 0`
(delete-only and no-op) are not checksum-verified at all. -/
theorem claim5_checksum_ranges_amended :
    (∀ h : Header, h.magic.length = 2 → h.dumps.drop 3 = [h.fileState])
    ∧ (∀ de : SingleDataBlock, de.crc32.length = 4 →
        de.dumps.take (de.dumps.length - 4) = de.dumpsNoCrc)
    ∧ (∀ de : MultiDataBlock, de.dumps = de.dumpsNoCrc ++ de.crc32)
    ∧ (∀ (inc : Bool) (de : MultiDataBlock) (text deleted : List Nat) (warn : Nat),
        de.nAdded = 0 → (stepBlock inc de text deleted warn).2.2 = warn) := by
  refine ⟨?_, ?_, ?_, ?_⟩
  · intro h hm
    obtain ⟨m, u0, fs⟩ := h
    obtain ⟨a, b, rfl⟩ := List.length_eq_two.mp hm
    rfl
  · intro de hc
    have hsplit : de.dumps = de.dumpsNoCrc ++ de.crc32 := by
      simp [SingleDataBlock.dumps, SingleDataBlock.dumpsNoCrc, List.append_assoc]
    have h4 : de.dumps.length - 4 = de.dumpsNoCrc.length := by
      rw [hsplit, List.length_append, hc]
      omega
    rw [h4, hsplit, List.take_left]
  · intro de
    simp [MultiDataBlock.dumps, MultiDataBlock.dumpsNoCrc, List.append_assoc]
  · intro inc de text deleted warn h0
    have ha : ¬ 0 < de.nAdded := by omega
    by_cases hd : 0 < de.nDeleted
    · simp [stepBlock, ha, hd]
    · simp [stepBlock, ha, hd]

/-- Witness for the amended claim C5 at concrete records. -/
theorem claim5_checksum_ranges_amended_witness :
    ({ magic := [78, 80], unk0 := 7, fileState := 0 } : Header).dumps.drop 3 = [0]
    ∧ ({ offset := 0, nDeleted := 0, nAdded := 1, data := [65], unk := [0], crc32 := [9, 9, 9, 9] } : SingleDataBlock).dumps.take
        (({ offset := 0, nDeleted := 0, nAdded := 1, data := [65], unk := [0], crc32 := [9, 9, 9, 9] } : SingleDataBlock).dumps.length - 4) =
        ({ offset := 0, nDeleted := 0, nAdded := 1, data := [65], unk := [0], crc32 := [9, 9, 9, 9] } : SingleDataBlock).dumpsNoCrc
    ∧ (stepBlock true { offset := 1, nDeleted := 1, nAdded := 0, data := [], crc32 := [0, 0, 0, 0] }
        [1, 2] [] 3).2.2 = 3 :=
  ⟨claim5_checksum_ranges_amended.1 { magic := [78, 80], unk0 := 7, fileState := 0 } (by decide),
   claim5_checksum_ranges_amended.2.1
     { offset := 0, nDeleted := 0, nAdded := 1, data := [65], unk := [0], crc32 := [9, 9, 9, 9] }
     (by decide),
   claim5_checksum_ranges_amended.2.2.2 true
     { offset := 1, nDeleted := 1, nAdded := 0, data := [], crc32 := [0, 0, 0, 0] }
     [1, 2] [] 3 (by decide)⟩

set_option maxRecDepth 16384 in
/-- Claim C6: checksum mismatches are non-fatal and invisible in the
recovered content: for every input and flag value, the decoder's content
equals the checksum-free structural decode (so a stream decodes iff its
structure decodes, and the content is built from the bytes as read);
concretely, flipping the data byte of a checksum-correct single-block
stream still returns the corrupted content, with one warning recorded. -/
theorem claim6_checksum_nonfatal :
    (∀ (s : List Nat) (inc : Bool),
      (processTabFile s inc).map (fun r => r.content) = processTabFileNoCrc s inc)
    ∧ processTabFile ([78, 80, 0, 0] ++ [0, 1, 1, 0, 0] ++ [0, 0, 1, 65, 0, 0] ++
        [74, 136, 57, 128]) false = some { content := [65], warnings := 0 }
    ∧ processTabFile ([78, 80, 0, 0] ++ [0, 1, 1, 0, 0] ++ [0, 0, 1, 66, 0, 0] ++
        [74, 136, 57, 128]) false = some { content := [66], warnings := 1 } := by
  refine ⟨?_, by decide, by decide⟩
  intro s inc
  unfold processTabFile processTabFileNoCrc
  cases hh : parseHeader s with
  | none => rfl
  | some p =>
    obtain ⟨h, s1⟩ := p
    dsimp only
    cases ht : parseTabMeta h s1 with
    | none => rfl
    | some q =>
      obtain ⟨t, s2⟩ := q
      dsimp only
      by_cases hfs : t.fileSize ≠ 0
      · simp only [if_pos hfs]
        cases hs : parseSingleDataBlock s2 with
        | none => rfl
        | some r => rfl
      · simp only [if_neg hfs]
        cases hm : parseMultiDataExtraHeader s2 with
        | none => rfl
        | some m =>
          obtain ⟨mdeh, s3⟩ := m
          simp [multiLoopF_fst, multiLoopF_snd]

end WindowsNotepad
